import Mathlib

/-!
Verification of the peer-compute repository (Go) against its
natural-language specification, via a shallow embedding in Lean 4.

Conventions of the embedding:
* Go strings are Lean `String`, Go `int64` / `time.Duration` are `Int`
  (nanoseconds for times), byte slices are `List Nat`.
* A Go `map[string]T` is an association list `List (String × T)` with
  unique keys; `findKey` / `insertKey` / `eraseKey` mirror map lookup,
  assignment (overwrite) and `delete`.
* Fallible functions return `Except String _`, carrying the error text
  of the source.
* External effects (the container runtime, the network, the wall clock)
  are passed in as explicit oracle arguments, so that every definition
  is an executable function of its inputs.
-/

namespace PeerCompute

/-! ## Association-list model of Go maps -/

/-- Lookup in a Go map represented as an association list
(`m[k]`, returning `none` when the key is absent). -/
def findKey {β : Type} (l : List (String × β)) (k : String) : Option β :=
  match l with
  | [] => none
  | (k', v) :: rest => if k' = k then some v else findKey rest k

/-- Go map assignment `m[k] = v`: overwrite the binding if the key is
present, otherwise add it. -/
def insertKey {β : Type} (l : List (String × β)) (k : String) (v : β) :
    List (String × β) :=
  match l with
  | [] => [(k, v)]
  | (k', v') :: rest =>
    if k' = k then (k, v) :: rest else (k', v') :: insertKey rest k v

/-- Go `delete(m, k)`: remove the binding for `k` (all of them; a Go map
has at most one). -/
def eraseKey {β : Type} (l : List (String × β)) (k : String) :
    List (String × β) :=
  match l with
  | [] => []
  | (k', v) :: rest =>
    if k' = k then eraseKey rest k else (k', v) :: eraseKey rest k

/-- Sum of `f` over the values of the map. -/
def sumBy {β : Type} (f : β → Int) (l : List (String × β)) : Int :=
  match l with
  | [] => 0
  | kv :: rest => f kv.2 + sumBy f rest

/-- Keys of the map. -/
def keysOf {β : Type} (l : List (String × β)) : List String :=
  l.map Prod.fst

theorem findKey_eraseKey_self {β : Type} (l : List (String × β)) (k : String) :
    findKey (eraseKey l k) k = none := by
  induction l with
  | nil => rfl
  | cons kv rest ih =>
    obtain ⟨k', v⟩ := kv
    by_cases h : k' = k
    · simpa [eraseKey, h] using ih
    · simpa [eraseKey, findKey, h] using ih

theorem mem_insertKey {β : Type} {l : List (String × β)} {k : String}
    {v : β} {kv : String × β} (h : kv ∈ insertKey l k v) :
    kv = (k, v) ∨ kv ∈ l := by
  induction l with
  | nil =>
    simp only [insertKey, List.mem_singleton] at h
    exact Or.inl h
  | cons kv' rest ih =>
    obtain ⟨k', v'⟩ := kv'
    by_cases hk : k' = k
    · rcases (by simpa [insertKey, hk] using h) with h1 | h1
      · exact Or.inl h1
      · exact Or.inr (List.mem_cons_of_mem _ h1)
    · rcases (by simpa [insertKey, hk] using h) with h1 | h1
      · exact Or.inr (by simp [h1])
      · rcases ih h1 with h2 | h2
        · exact Or.inl h2
        · exact Or.inr (List.mem_cons_of_mem _ h2)

/-- Embedding of `MaxTimestampDrift = 5 * time.Minute`, in nanoseconds. -/
def MaxTimestampDrift : Int := 5 * 60 * 1000000000

/-- Embedding of `security.ValidateTimestamp`: `drift := now.Sub(reqTime)`; the request
is rejected when the drift is below `-MaxTimestampDrift` (future) or above
`MaxTimestampDrift` (too old). `now` and `timestamp` are in nanoseconds. -/
def ValidateTimestamp (now timestamp : Int) : Except String Unit :=
  let drift := now - timestamp
  if drift < -MaxTimestampDrift then .error "timestamp is in the future"
  else if drift > MaxTimestampDrift then .error "timestamp is too old"
  else .ok ()

theorem validateTimestamp_eq_ok_iff (now t : Int) :
    ValidateTimestamp now t = .ok () ↔ |now - t| ≤ MaxTimestampDrift := by
  simp only [ValidateTimestamp]
  rw [abs_le]
  split_ifs with h1 h2
  · exact ⟨fun h => absurd h (by simp), fun h => by exfalso; omega⟩
  · exact ⟨fun h => absurd h (by simp), fun h => by exfalso; omega⟩
  · exact ⟨fun _ => ⟨by omega, by omega⟩, fun _ => rfl⟩

/-! ## Trust store and connection gate (`p2p.TrustManager`,
`p2p.ConnectionGater`) -/

/-- Embedding of `p2p.TrustedPeer` (`added_at` in unix nanoseconds). -/
structure TrustedPeer where
  id : String
  name : String
  addedAt : Int
  addresses : List String
deriving DecidableEq, Repr

/-- The in-memory state of `p2p.TrustManager`: the map from peer id to
`TrustedPeer`. File persistence (`Save`/`Load`) is out of scope here; the
gate consults only this map. -/
abbrev TrustStore := List (String × TrustedPeer)

/-- Embedding of `TrustManager.IsTrusted`: membership of the peer id in the map. -/
def IsTrusted (tm : TrustStore) (p : String) : Bool :=
  (findKey tm p).isSome

/-- Embedding of `TrustManager.Add`: update an existing entry's name and addresses, or
install a new entry stamped with the current time. -/
def TrustAdd (tm : TrustStore) (p name : String) (addresses : List String)
    (now : Int) : TrustStore :=
  match findKey tm p with
  | some tp => insertKey tm p { tp with name := name, addresses := addresses }
  | none =>
    insertKey tm p
      { id := p, name := name, addedAt := now, addresses := addresses }

/-- Embedding of `TrustManager.Remove`: error if the peer is not in the list, otherwise
delete its map entry. -/
def TrustRemove (tm : TrustStore) (p : String) : Except String TrustStore :=
  match findKey tm p with
  | none => .error ("peer " ++ p ++ " not in trust list")
  | some _ => .ok (eraseKey tm p)

/-- Embedding of `ConnectionGater.InterceptPeerDial`: allow iff trusted. -/
def InterceptPeerDial (tm : TrustStore) (p : String) : Bool :=
  IsTrusted tm p

/-- Embedding of `ConnectionGater.InterceptAddrDial`: same check, the address is not
consulted. -/
def InterceptAddrDial (tm : TrustStore) (p : String) (_addr : String) : Bool :=
  IsTrusted tm p

/-- Embedding of `ConnectionGater.InterceptAccept`: the peer id is not yet known, so the
connection is allowed to proceed to the security handshake. -/
def InterceptAccept (_tm : TrustStore) : Bool :=
  true

/-- Embedding of `ConnectionGater.InterceptSecured`: after the handshake, allow iff the
proven peer id is trusted. `inbound` mirrors the `network.Direction`
argument, which the decision does not consult. -/
def InterceptSecured (tm : TrustStore) (_inbound : Bool) (p : String) : Bool :=
  IsTrusted tm p

/-! ## Message signing (`protocol.SignDeployRequest`,
`protocol.VerifyDeployRequest`, `protocol.createSigningPayload`) -/

/-- Embedding of `protocol.DeployRequest` (field for field; byte slices are `List Nat`,
`int64` fields are `Int`, `environment` an association list). -/
structure DeployRequest where
  requestID : String
  image : String
  cpuMillicores : Int
  memoryBytes : Int
  exposePort : Int
  environment : List (String × String)
  requesterID : String
  timestamp : Int
  signature : List Nat
deriving DecidableEq, Repr

/-- The canonical signing tuple built by `protocol.createSigningPayload`:
every `DeployRequest` field except the signature, in key order. The source
JSON-marshals this struct and hashes it with SHA-256; that step is modelled
as the (injective) identity on the tuple. -/
structure SigningPayload where
  requestID : String
  image : String
  cpuMillicores : Int
  memoryBytes : Int
  exposePort : Int
  environment : List (String × String)
  requesterID : String
  timestamp : Int
deriving DecidableEq, Repr

/-- Embedding of `protocol.createSigningPayload`. -/
def createSigningPayload (req : DeployRequest) : SigningPayload :=
  { requestID := req.requestID
    image := req.image
    cpuMillicores := req.cpuMillicores
    memoryBytes := req.memoryBytes
    exposePort := req.exposePort
    environment := req.environment
    requesterID := req.requesterID
    timestamp := req.timestamp }

/-- Embedding of `protocol.SignDeployRequest`: clear the signature, stamp
`time.Now().UnixNano()`, sign the canonical payload with the identity's
signing key (passed as the `sign` oracle) and store the signature. -/
def SignDeployRequest (req : DeployRequest) (sign : SigningPayload → List Nat)
    (now : Int) : DeployRequest :=
  let req1 := { req with signature := [], timestamp := now }
  { req1 with signature := sign (createSigningPayload req1) }

/-- Embedding of `protocol.VerifyDeployRequest` exactly as written in the source: the
timestamp window is checked; the signature is then extracted and the
payload recreated, but the cryptographic check itself is a stub
(`_ = payload; _ = pubKeyBytes; return nil`), so the function succeeds for
any signature and any field values whenever the timestamp is in window. -/
def VerifyDeployRequest (req : DeployRequest) (_pubKeyBytes : List Nat)
    (now : Int) : Except String Unit :=
  let drift := now - req.timestamp
  if drift < -MaxTimestampDrift ∨ drift > MaxTimestampDrift then
    .error "request timestamp too old or in future"
  else
    let _payload := createSigningPayload { req with signature := [] }
    .ok ()

/-! ## Scheduler (`scheduler.Scheduler`) -/

/-- Embedding of `protocol.DeploymentStatus`. -/
inductive DeploymentStatus where
  | pending
  | pulling
  | starting
  | running
  | stopping
  | stopped
  | failed
  | terminated
deriving DecidableEq, Repr

/-- Terminal states of the deployment state machine. -/
def DeploymentStatus.isTerminal : DeploymentStatus → Bool
  | .stopped => true
  | .failed => true
  | .terminated => true
  | _ => false

/-- Embedding of `protocol.Deployment` (times in unix nanoseconds). -/
structure Deployment where
  id : String
  image : String
  containerID : String
  requesterID : String
  status : DeploymentStatus
  cpuLimit : Int
  memoryLimit : Int
  exposePort : Int
  startedAt : Int
  stoppedAt : Option Int
deriving DecidableEq, Repr

/-- Embedding of `scheduler.Config`. -/
structure SchedConfig where
  maxDeployments : Nat
  maxCPU : Int
  maxMemory : Int
deriving DecidableEq, Repr

/-- Embedding of `scheduler.DefaultConfig`. -/
def DefaultConfig : SchedConfig :=
  { maxDeployments := 10, maxCPU := 4000, maxMemory := 4 * 1024 * 1024 * 1024 }

/-- The mutable state of `scheduler.Scheduler` (the runtime handle is an
oracle, not state). -/
structure SchedState where
  deployments : List (String × Deployment)
  usedCPU : Int
  usedMemory : Int
  maxSlots : Nat
  maxCPU : Int
  maxMemory : Int
deriving Repr

/-- Embedding of `scheduler.NewScheduler`. -/
def NewScheduler (cfg : SchedConfig) : SchedState :=
  { deployments := [], usedCPU := 0, usedMemory := 0,
    maxSlots := cfg.maxDeployments, maxCPU := cfg.maxCPU,
    maxMemory := cfg.maxMemory }

/-- Embedding of `Scheduler.CanSchedule`. -/
def CanSchedule (s : SchedState) (cpuMillicores memoryBytes : Int) :
    Except String Unit :=
  if s.deployments.length ≥ s.maxSlots then
    .error "maximum deployment slots reached"
  else if s.usedCPU + cpuMillicores > s.maxCPU then
    .error "insufficient CPU"
  else if s.usedMemory + memoryBytes > s.maxMemory then
    .error "insufficient memory"
  else .ok ()

/-- Embedding of `Scheduler.updateStatus`: in-place status update of the record held in
the map, when present. -/
def updateStatus (s : SchedState) (deploymentID : String)
    (st : DeploymentStatus) : SchedState :=
  match findKey s.deployments deploymentID with
  | some d =>
    { s with deployments :=
        insertKey s.deployments deploymentID { d with status := st } }
  | none => s

/-- Embedding of `Scheduler.failDeployment`: the source marks the record Failed, rolls
the counters back, stamps `stoppedAt` and deletes the map entry; the net
effect on the scheduler state is the rollback plus the delete. -/
def failDeployment (s : SchedState) (deploymentID : String) (_now : Int) :
    SchedState :=
  match findKey s.deployments deploymentID with
  | none => s
  | some d =>
    { s with usedCPU := s.usedCPU - d.cpuLimit,
             usedMemory := s.usedMemory - d.memoryLimit,
             deployments := eraseKey s.deployments deploymentID }

/-- Embedding of `scheduler.generateDeploymentID` (`nanos` = `time.Now().UnixNano()`). -/
def generateDeploymentID (nanos : Nat) : String :=
  "dep-" ++ toString nanos

/-- The last step of `Scheduler.Schedule`: store the container id on the
record and mark it Running, when still present. -/
def setRunning (s : SchedState) (deploymentID containerID : String) :
    SchedState :=
  match findKey s.deployments deploymentID with
  | some d =>
    let d' : Deployment := { d with containerID := containerID, status := .running }
    { s with deployments := insertKey s.deployments deploymentID d' }
  | none => s

/-- The Pending deployment record installed by `Scheduler.Schedule`. -/
def mkPendingDeployment (req : DeployRequest) (deploymentID : String)
    (now : Int) : Deployment :=
  { id := deploymentID, image := req.image, containerID := "",
    requesterID := req.requesterID, status := .pending,
    cpuLimit := req.cpuMillicores, memoryLimit := req.memoryBytes,
    exposePort := req.exposePort, startedAt := now, stoppedAt := none }

/-- Embedding of `runtime.ContainerConfig` (docker.go). -/
structure ContainerConfig where
  deploymentID : String
  requesterID : String
  image : String
  cpuMillicores : Int
  memoryBytes : Int
  exposePort : Int
  environment : List (String × String)
deriving DecidableEq, Repr

/-- Embedding of `runtime.validateConfig` (docker.go): a deployment id and
an image are required, the cpu limit must be positive, and the memory
limit must be positive and at least 4 MiB. This check is deterministic
in-repo code and is the first step of `Runtime.Run`. -/
def validateConfig (cfg : ContainerConfig) : Except String Unit :=
  if cfg.deploymentID = "" then .error "deployment ID is required"
  else if cfg.image = "" then .error "image is required"
  else if cfg.cpuMillicores ≤ 0 then .error "CPU limit must be positive"
  else if cfg.memoryBytes ≤ 0 then .error "memory limit must be positive"
  else if cfg.memoryBytes < 4 * 1024 * 1024 then
    .error "memory limit must be at least 4MB"
  else .ok ()

/-- Embedding of `Runtime.Run` (docker.go): validate the configuration
first, then invoke `docker run`; only the external Docker invocation is an
oracle (`dockerResult`, the container id on success). -/
def runtimeRun (cfg : ContainerConfig) (dockerResult : Option String) :
    Except String String :=
  match validateConfig cfg with
  | .error e => .error ("invalid configuration: " ++ e)
  | .ok _ =>
    match dockerResult with
    | some containerID => .ok containerID
    | none => .error "failed to start container"

/-- The `runtime.ContainerConfig` that `Scheduler.Schedule` builds for its
`runtime.Run` call (scheduler.go lines 123-131). -/
def mkContainerConfig (req : DeployRequest) (deploymentID : String) :
    ContainerConfig :=
  { deploymentID := deploymentID, requesterID := req.requesterID,
    image := req.image, cpuMillicores := req.cpuMillicores,
    memoryBytes := req.memoryBytes, exposePort := req.exposePort,
    environment := req.environment }

/-- The lock section of `Scheduler.Schedule`: install the record in the
map and add the request's limits to the running totals. `v` is the record
held at the key (Pending at install time; the status-update steps replace
it in place, leaving the limits untouched). -/
def installDeployment (s : SchedState) (req : DeployRequest)
    (deploymentID : String) (v : Deployment) : SchedState :=
  { s with deployments := insertKey s.deployments deploymentID v,
           usedCPU := s.usedCPU + req.cpuMillicores,
           usedMemory := s.usedMemory + req.memoryBytes }

/-- Embedding of `Scheduler.Schedule`: check admission, install the
Pending record, pull the image (`pullOk` oracle for `runtime.Pull`), run
the container through `runtimeRun` — whose first step is the in-repo
`validateConfig` — and on any failure roll back via `failDeployment`.
`nanos` feeds the deployment-id generator, `now` the `StartedAt` stamp. -/
def Schedule (s : SchedState) (req : DeployRequest) (pullOk : Bool)
    (runResult : Option String) (nanos : Nat) (now : Int) :
    SchedState × Except String Deployment :=
  match CanSchedule s req.cpuMillicores req.memoryBytes with
  | .error e => (s, .error e)
  | .ok _ =>
    let deploymentID := generateDeploymentID nanos
    let d : Deployment := mkPendingDeployment req deploymentID now
    let s1 : SchedState := installDeployment s req deploymentID d
    let s2 := updateStatus s1 deploymentID .pulling
    if pullOk then
      let s3 := updateStatus s2 deploymentID .starting
      match runtimeRun (mkContainerConfig req deploymentID) runResult with
      | .ok containerID =>
        (setRunning s3 deploymentID containerID,
         .ok { d with containerID := containerID, status := .running })
      | .error e =>
        (failDeployment s3 deploymentID now,
         .error ("failed to start container: " ++ e))
    else
      (failDeployment s2 deploymentID now, .error "failed to pull image")

/-- Embedding of `Scheduler.Stop`: mark Stopping under the lock; stop the container
outside the lock (`stopOk` oracle, skipped when no container id was
recorded); then roll back the counters, stamp `stoppedAt`, mark Stopped
and delete the entry. A runtime stop failure returns early, leaving the
deployment in state Stopping with its resources still counted. -/
def Stop (s : SchedState) (deploymentID : String) (stopOk : Bool)
    (_now : Int) : SchedState × Except String Unit :=
  match findKey s.deployments deploymentID with
  | none => (s, .error ("deployment " ++ deploymentID ++ " not found"))
  | some d =>
    let s1 := updateStatus s deploymentID .stopping
    if d.containerID ≠ "" ∧ stopOk = false then
      (s1, .error "failed to stop container")
    else
      match findKey s1.deployments deploymentID with
      | some d2 =>
        ({ s1 with usedCPU := s1.usedCPU - d2.cpuLimit,
                   usedMemory := s1.usedMemory - d2.memoryLimit,
                   deployments := eraseKey s1.deployments deploymentID },
         .ok ())
      | none => (s1, .ok ())

def cpuOf (d : Deployment) : Int := d.cpuLimit

def memOf (d : Deployment) : Int := d.memoryLimit

/-- The scheduler's resource-accounting invariant: counters equal the sums
over the deployment map, keys are unique, no terminal deployment is in the
map (hence none contributes to the totals), every tracked budget is
non-negative, and the configured bounds hold. -/
structure SchedInv (s : SchedState) : Prop where
  cpu_eq : s.usedCPU = sumBy cpuOf s.deployments
  mem_eq : s.usedMemory = sumBy memOf s.deployments
  keys_nodup : (keysOf s.deployments).Nodup
  no_terminal : ∀ kv ∈ s.deployments, kv.2.status.isTerminal = false
  budgets_nonneg : ∀ kv ∈ s.deployments,
    0 ≤ kv.2.cpuLimit ∧ 0 ≤ kv.2.memoryLimit
  cpu_le : s.usedCPU ≤ s.maxCPU
  mem_le : s.usedMemory ≤ s.maxMemory
  slots_le : s.deployments.length ≤ s.maxSlots

theorem mem_of_findKey {β : Type} {l : List (String × β)} {k : String}
    {d : β} (h : findKey l k = some d) : (k, d) ∈ l := by
  induction l with
  | nil => simp [findKey] at h
  | cons kv rest ih =>
    obtain ⟨k', v⟩ := kv
    by_cases hk : k' = k
    · have hv : v = d := by simpa [findKey, hk] using h
      subst hk hv
      exact List.mem_cons_self _ _
    · have h' : findKey rest k = some d := by simpa [findKey, hk] using h
      exact List.mem_cons_of_mem _ (ih h')

theorem findKey_insertKey_self {β : Type} (l : List (String × β))
    (k : String) (v : β) : findKey (insertKey l k v) k = some v := by
  induction l with
  | nil => simp [insertKey, findKey]
  | cons kv rest ih =>
    obtain ⟨k', v'⟩ := kv
    by_cases hk : k' = k
    · simp [insertKey, hk, findKey]
    · simpa [insertKey, hk, findKey] using ih

theorem keysOf_insertKey_present {β : Type} {l : List (String × β)}
    {k : String} {d : β} (v : β) (h : findKey l k = some d) :
    keysOf (insertKey l k v) = keysOf l := by
  induction l with
  | nil => simp [findKey] at h
  | cons kv rest ih =>
    obtain ⟨k', v'⟩ := kv
    by_cases hk : k' = k
    · simp [insertKey, hk, keysOf]
    · have h' : findKey rest k = some d := by simpa [findKey, hk] using h
      simp only [insertKey, if_neg hk, keysOf, List.map_cons,
        List.cons.injEq, true_and]
      exact ih h'

theorem sumBy_insertKey_present {β : Type} (f : β → Int)
    {l : List (String × β)} {k : String} {d : β} (v : β)
    (h : findKey l k = some d) :
    sumBy f (insertKey l k v) = sumBy f l - f d + f v := by
  induction l with
  | nil => simp [findKey] at h
  | cons kv rest ih =>
    obtain ⟨k', v'⟩ := kv
    by_cases hk : k' = k
    · have hv : v' = d := by simpa [findKey, hk] using h
      subst hv
      simp only [insertKey, if_pos hk, sumBy]
      ring
    · have h' : findKey rest k = some d := by simpa [findKey, hk] using h
      simp only [insertKey, if_neg hk, sumBy, ih h']
      ring

theorem length_insertKey_present {β : Type} {l : List (String × β)}
    {k : String} {d : β} (v : β) (h : findKey l k = some d) :
    (insertKey l k v).length = l.length := by
  have h1 := keysOf_insertKey_present v h
  have h2 : (keysOf (insertKey l k v)).length = (keysOf l).length := by
    rw [h1]
  simpa [keysOf, List.length_map] using h2

theorem schedInv_replaceEntry (s : SchedState) (deploymentID : String)
    (d v : Deployment) (h : SchedInv s)
    (hf : findKey s.deployments deploymentID = some d)
    (hcpu : v.cpuLimit = d.cpuLimit) (hmem : v.memoryLimit = d.memoryLimit)
    (hst : v.status.isTerminal = false) :
    SchedInv { s with deployments := insertKey s.deployments deploymentID v } := by
  refine ⟨?_, ?_, ?_, ?_, ?_, ?_, ?_, ?_⟩
  · show s.usedCPU = sumBy cpuOf (insertKey s.deployments deploymentID v)
    rw [sumBy_insertKey_present cpuOf v hf, h.cpu_eq]
    simp only [cpuOf, hcpu]
    ring
  · show s.usedMemory = sumBy memOf (insertKey s.deployments deploymentID v)
    rw [sumBy_insertKey_present memOf v hf, h.mem_eq]
    simp only [memOf, hmem]
    ring
  · show (keysOf (insertKey s.deployments deploymentID v)).Nodup
    rw [keysOf_insertKey_present v hf]
    exact h.keys_nodup
  · intro kv hm
    rcases mem_insertKey hm with h1 | h1
    · rw [h1]
      exact hst
    · exact h.no_terminal kv h1
  · intro kv hm
    rcases mem_insertKey hm with h1 | h1
    · rw [h1]
      have hd := h.budgets_nonneg _ (mem_of_findKey hf)
      exact ⟨hcpu ▸ hd.1, hmem ▸ hd.2⟩
    · exact h.budgets_nonneg kv h1
  · exact h.cpu_le
  · exact h.mem_le
  · show (insertKey s.deployments deploymentID v).length ≤ s.maxSlots
    rw [length_insertKey_present v hf]
    exact h.slots_le

theorem schedInv_setRunning (s : SchedState) (deploymentID containerID : String)
    (h : SchedInv s) : SchedInv (setRunning s deploymentID containerID) := by
  unfold setRunning
  cases hf : findKey s.deployments deploymentID with
  | none => exact h
  | some d => exact schedInv_replaceEntry s deploymentID d _ h hf rfl rfl rfl

/-- C4: each dial-time and post-handshake gate decision returns true
exactly when the peer is in the trust store, `InterceptAccept` always
allows and defers, and after a successful `Remove` every gate decision
that identifies the removed peer denies. -/
theorem gate_allows_iff_trusted :
    (∀ (tm : TrustStore) (p a : String) (inbound : Bool),
      (InterceptPeerDial tm p = true ↔ (findKey tm p).isSome = true) ∧
      (InterceptAddrDial tm p a = true ↔ (findKey tm p).isSome = true) ∧
      (InterceptSecured tm inbound p = true ↔ (findKey tm p).isSome = true) ∧
      InterceptAccept tm = true) ∧
    (∀ (tm tm' : TrustStore) (p a : String) (inbound : Bool),
      TrustRemove tm p = .ok tm' →
      InterceptPeerDial tm' p = false ∧
      InterceptAddrDial tm' p a = false ∧
      InterceptSecured tm' inbound p = false) := by
  constructor
  · intro tm p a inbound
    exact ⟨Iff.rfl, Iff.rfl, Iff.rfl, rfl⟩
  · intro tm tm' p a inbound hrem
    have htm' : tm' = eraseKey tm p := by
      unfold TrustRemove at hrem
      cases hf : findKey tm p with
      | none => rw [hf] at hrem; exact absurd hrem (by simp)
      | some tp =>
        rw [hf] at hrem
        simpa using hrem.symm
    subst htm'
    have hnone := findKey_eraseKey_self tm p
    refine ⟨?_, ?_, ?_⟩ <;>
      simp [InterceptPeerDial, InterceptAddrDial, InterceptSecured,
        IsTrusted, hnone]

def tpSample : TrustedPeer :=
  { id := "peerA", name := "alice", addedAt := 0, addresses := [] }

/-- Witness for `gate_allows_iff_trusted`: removing the only trusted peer
makes all identifying gate decisions deny. -/
theorem gate_allows_iff_trusted_witness :
    InterceptPeerDial [] "peerA" = false ∧
    InterceptAddrDial [] "peerA" "addr1" = false ∧
    InterceptSecured [] true "peerA" = false :=
  gate_allows_iff_trusted.2 [("peerA", tpSample)] [] "peerA" "addr1" true
    (by rfl)

/-- C5: the verifier accepts a timestamp exactly when the absolute drift
from `now` is at most five minutes; a timestamp exactly five minutes old
is accepted, one that is five minutes plus one nanosecond old is rejected
as too old, and the window is symmetric (a timestamp the same amount in
the future is rejected as future-dated). -/
theorem timestamp_window_symmetric_five_minutes (now t : Int) :
    (ValidateTimestamp now t = .ok () ↔ |now - t| ≤ MaxTimestampDrift) ∧
    MaxTimestampDrift = 5 * 60 * 1000000000 ∧
    ValidateTimestamp now (now - MaxTimestampDrift) = .ok () ∧
    ValidateTimestamp now (now - (MaxTimestampDrift + 1)) =
      .error "timestamp is too old" ∧
    ValidateTimestamp now (now + (MaxTimestampDrift + 1)) =
      .error "timestamp is in the future" := by
  refine ⟨validateTimestamp_eq_ok_iff now t, rfl, ?_, ?_, ?_⟩
  · simp only [ValidateTimestamp, MaxTimestampDrift]
    norm_num
  · simp only [ValidateTimestamp, MaxTimestampDrift]
    norm_num
  · simp only [ValidateTimestamp, MaxTimestampDrift]
    norm_num

def sampleDeployRequest : DeployRequest :=
  { requestID := "req-1", image := "nginx:alpine", cpuMillicores := 500,
    memoryBytes := 268435456, exposePort := 80, environment := [],
    requesterID := "peerA", timestamp := 0, signature := [] }

def sampleSign : SigningPayload → List Nat := fun _ => [1, 2, 3]

/-- C2 evidence: a request signed by `SignDeployRequest` verifies, but so
does the same request with its image mutated after signing (and even with
the signature bytes replaced), because the cryptographic check in
`VerifyDeployRequest` is an unimplemented stub — contradicting the claim
that mutating any non-signature field makes verification fail. -/
theorem verify_accepts_mutated_request :
    VerifyDeployRequest (SignDeployRequest sampleDeployRequest sampleSign 0)
      [7] 0 = .ok () ∧
    VerifyDeployRequest
      { SignDeployRequest sampleDeployRequest sampleSign 0 with
        image := "evil:latest" } [7] 0 = .ok () ∧
    VerifyDeployRequest
      { SignDeployRequest sampleDeployRequest sampleSign 0 with
        signature := [9, 9, 9] } [7] 0 = .ok () := by
  exact ⟨by rfl, by rfl, by rfl⟩

/-! ## Protocol handlers (`handler.Handler`) -/

/-- Reply written back on the deploy stream (the fields of
`protocol.DeployResponse` that `handleDeploy` sets). -/
inductive DeployReply where
  | failure (message : String)
  | success (deploymentID containerID exposedURL message : String)
deriving DecidableEq, Repr

/-- Embedding of `handler.handleDeploy`, sequentially: read the request (`parsed` is
`none` on a JSON read failure), check that the remote peer is trusted,
pull the image (`pullOk`, the handler's own `runtime.Pull` call), then
call `Scheduler.Schedule` on a copy of the request whose `RequesterID` is
replaced by the authenticated remote peer (timestamp and signature are not
copied into it). No signature, timestamp, requester-id-match or
request-id-dedup check appears anywhere in the source handler. Tunnel
registration is elided (`exposedURL` stays empty; a registration failure
is only logged and does not affect admission). -/
def handleDeploy (trust : TrustStore) (remotePeer : String)
    (parsed : Option DeployRequest) (pullOk : Bool)
    (runResult : Option String) (nanos : Nat) (now : Int)
    (s : SchedState) : SchedState × DeployReply :=
  match parsed with
  | none => (s, .failure "invalid request format")
  | some req =>
    if IsTrusted trust remotePeer = false then
      (s, .failure "not trusted")
    else if pullOk = false then
      (s, .failure "failed to pull image")
    else
      let req' : DeployRequest :=
        { requestID := req.requestID, image := req.image,
          cpuMillicores := req.cpuMillicores, memoryBytes := req.memoryBytes,
          exposePort := req.exposePort, environment := req.environment,
          requesterID := remotePeer, timestamp := 0, signature := [] }
      match Schedule s req' pullOk runResult nanos now with
      | (s', .error e) => (s', .failure e)
      | (s', .ok d) =>
        (s', .success d.id d.containerID "" "Container deployed successfully")

def c1Req : DeployRequest :=
  { requestID := "req-replay", image := "nginx:alpine", cpuMillicores := 500,
    memoryBytes := 268435456, exposePort := 0, environment := [],
    requesterID := "peerQ", timestamp := -1000000000000000000,
    signature := [] }

/-- C1 evidence: a deploy request whose declared requester (`peerQ`)
differs from the stream's authenticated peer (`peerP`), whose timestamp
is far outside the five-minute window and whose signature is empty is
nevertheless admitted — `Schedule` is called and installs the deployment —
because the handler checks only trust. This contradicts the claim that
such a request is answered with a typed error and not admitted. -/
theorem handleDeploy_admits_unverified_request :
    (handleDeploy [("peerP", tpSample)] "peerP" (some c1Req) true (some "c1")
      7 0 (NewScheduler DefaultConfig)).2 =
      DeployReply.success "dep-7" "c1" "" "Container deployed successfully" ∧
    (findKey (handleDeploy [("peerP", tpSample)] "peerP" (some c1Req) true
      (some "c1") 7 0 (NewScheduler DefaultConfig)).1.deployments
      "dep-7").isSome = true ∧
    c1Req.requesterID ≠ "peerP" ∧
    ValidateTimestamp 0 c1Req.timestamp = .error "timestamp is too old" := by
  refine ⟨by rfl, by rfl, by decide, by rfl⟩

/-- Embedding of `protocol.StopRequest`. -/
structure StopRequest where
  deploymentID : String
  requesterID : String
  timestamp : Int
  signature : List Nat
deriving DecidableEq, Repr

/-- Reply written back on the stop stream (the fields of
`protocol.StopResponse` that `handleStop` sets). -/
inductive StopReply where
  | failure (message : String)
  | success (deploymentID message : String)
deriving DecidableEq, Repr

/-- Embedding of `handler.handleStop`, sequentially: read the request, unregister the
deployment from the gateway (no scheduler effect; elided), call
`Scheduler.Stop` with the request's deployment id and report the outcome.
The authenticated remote peer (`_remotePeer`) is never consulted: neither
the handler nor `Scheduler.Stop` compares it with the deployment's stored
requester id. -/
def handleStop (_remotePeer : String) (parsed : Option StopRequest)
    (stopOk : Bool) (now : Int) (s : SchedState) : SchedState × StopReply :=
  match parsed with
  | none => (s, .failure "invalid request format")
  | some req =>
    match Stop s req.deploymentID stopOk now with
    | (s', .error e) => (s', .failure ("failed to stop: " ++ e))
    | (s', .ok _) => (s', .success req.deploymentID "Container stopped")

theorem stop_not_found (s : SchedState) (deploymentID : String)
    (stopOk : Bool) (now : Int)
    (hf : findKey s.deployments deploymentID = none) :
    Stop s deploymentID stopOk now =
      (s, .error ("deployment " ++ deploymentID ++ " not found")) := by
  unfold Stop
  rw [hf]

theorem stop_found_exists (s : SchedState) (deploymentID : String)
    (now : Int) (d : Deployment)
    (hf : findKey s.deployments deploymentID = some d) :
    ∃ s', Stop s deploymentID true now = (s', Except.ok ()) := by
  unfold Stop
  rw [hf]
  dsimp only
  have hcond : ¬ (d.containerID ≠ "" ∧ true = false) := by
    intro hc
    exact absurd hc.2 (by simp)
  rw [if_neg hcond]
  cases hf2 : findKey (updateStatus s deploymentID
      DeploymentStatus.stopping).deployments deploymentID with
  | none => exact ⟨_, rfl⟩
  | some d2 => exact ⟨_, rfl⟩

def c6Deployment : Deployment :=
  { id := "dep-1", image := "img", containerID := "c1",
    requesterID := "peerA", status := .running, cpuLimit := 500,
    memoryLimit := 1024, exposePort := 0, startedAt := 0, stoppedAt := none }

def c6State : SchedState :=
  { deployments := [("dep-1", c6Deployment)], usedCPU := 500,
    usedMemory := 1024, maxSlots := 10, maxCPU := 4000, maxMemory := 4096 }

def c6StopReq : StopRequest :=
  { deploymentID := "dep-1", requesterID := "peerB", timestamp := 0,
    signature := [] }

def c6StopReqMissing : StopRequest :=
  { deploymentID := "dep-9", requesterID := "peerB", timestamp := 0,
    signature := [] }

/-- C6 counterexample: deployment `dep-1` was admitted for requester
`peerA`, yet a stop request arriving from peer `peerB` succeeds and the
deployment is removed — there is no not-owner failure. -/
theorem handleStop_ignores_ownership :
    c6Deployment.requesterID = "peerA" ∧
    (handleStop "peerB" (some c6StopReq) true 0 c6State).2 =
      StopReply.success "dep-1" "Container stopped" ∧
    findKey (handleStop "peerB" (some c6StopReq) true 0
      c6State).1.deployments "dep-1" = none := by
  exact ⟨rfl, by rfl, by rfl⟩

/-- C6 (amended): a stop request for an unknown deployment id fails with
the not-found error and leaves the scheduler state unchanged; but no
ownership check is performed — when the deployment exists and the runtime
stop succeeds, the request succeeds for any requesting peer, and the
handler's result never depends on which peer sent the request. -/
theorem handleStop_not_found_no_owner_check :
    (∀ (p : String) (req : StopRequest) (stopOk : Bool) (now : Int)
      (s : SchedState),
      findKey s.deployments req.deploymentID = none →
      handleStop p (some req) stopOk now s =
        (s, .failure ("failed to stop: deployment " ++ req.deploymentID ++
          " not found"))) ∧
    (∀ (p : String) (req : StopRequest) (now : Int) (s : SchedState)
      (d : Deployment),
      findKey s.deployments req.deploymentID = some d →
      (handleStop p (some req) true now s).2 =
        StopReply.success req.deploymentID "Container stopped") ∧
    (∀ (p q : String) (parsed : Option StopRequest) (stopOk : Bool)
      (now : Int) (s : SchedState),
      handleStop p parsed stopOk now s = handleStop q parsed stopOk now s) := by
  refine ⟨?_, ?_, ?_⟩
  · intro p req stopOk now s hf
    dsimp only [handleStop]
    rw [stop_not_found s req.deploymentID stopOk now hf]
    rfl
  · intro p req now s d hf
    dsimp only [handleStop]
    obtain ⟨s', hs'⟩ := stop_found_exists s req.deploymentID now d hf
    rw [hs']
  · intro p q parsed stopOk now s
    rfl

/-- Witness for `handleStop_not_found_no_owner_check` at concrete inputs:
the empty scheduler answers not-found for `dep-9`, and `peerB` can stop
`peerA`'s deployment `dep-1`. -/
theorem handleStop_not_found_no_owner_check_witness :
    handleStop "peerB" (some c6StopReqMissing) true 0
        (NewScheduler DefaultConfig) =
      (NewScheduler DefaultConfig,
       StopReply.failure "failed to stop: deployment dep-9 not found") ∧
    (handleStop "peerB" (some c6StopReq) true 0 c6State).2 =
      StopReply.success "dep-1" "Container stopped" :=
  ⟨handleStop_not_found_no_owner_check.1 "peerB" c6StopReqMissing true 0
    (NewScheduler DefaultConfig) (by rfl),
   handleStop_not_found_no_owner_check.2.1 "peerB" c6StopReq 0 c6State
    c6Deployment (by rfl)⟩

/-! ## Gateway tunnel manager (`cmd/gateway/main.go`, the implemented
multiplexer) and the skeleton tunnel server (`internal/tunnel/server.go`) -/

/-- Embedding of `TunnelMessage`: the line-delimited JSON frame of the tunnel wire
protocol, with Go zero values for absent fields. -/
structure TunnelMessage where
  type : String
  deploymentID : String
  port : Int
  peerID : String
  requestID : String
  method : String
  path : String
  headers : List (String × String)
  body : List Nat
  statusCode : Int
deriving DecidableEq, Repr

/-- A `TunnelMessage` with every field at its Go zero value. -/
def emptyTunnelMessage : TunnelMessage :=
  { type := "", deploymentID := "", port := 0, peerID := "", requestID := "",
    method := "", path := "", headers := [], body := [], statusCode := 0 }

/-- Gateway-side `TunnelConn`: the registered peer id, the per-tunnel route
table (deployment id → container-local port) and the pending map, modelled
by the set of request ids whose single-slot response channel a public
request's task is waiting on. Socket and buffers are elided. -/
structure TunnelConn where
  peerID : String
  routes : List (String × Int)
  pending : List String
deriving DecidableEq, Repr

/-- Tunnels are identified by an index into the set of live connections
(the Go code holds pointers; only identity matters here). -/
abbrev TunnelRef := Nat

/-- Gateway-side `TunnelManager`: `tunnels` maps peer id → tunnel and
`routes` maps deployment id → tunnel. -/
structure TunnelManager where
  tunnels : List (String × TunnelRef)
  routes : List (String × TunnelRef)
deriving DecidableEq, Repr

/-- The `register` case of `handleTunnelConn`: record the peer id and the
local port on the tunnel, index the tunnel under the peer id and under the
deployment id — a plain map assignment that silently overwrites any
existing binding — and send back a `registered` confirmation. The public
URL printed for the registration is `https://<deployment-id>.<base-domain>`
with the raw deployment id as the label. No uniqueness check is made. -/
def registerCase (tm : TunnelManager) (tc : TunnelConn) (ref : TunnelRef)
    (msg : TunnelMessage) (baseDomain : String) :
    TunnelManager × TunnelConn × TunnelMessage × String :=
  let tc' : TunnelConn :=
    { tc with peerID := msg.peerID,
              routes := insertKey tc.routes msg.deploymentID msg.port }
  let tm' : TunnelManager :=
    { tunnels := insertKey tm.tunnels msg.peerID ref,
      routes := insertKey tm.routes msg.deploymentID ref }
  let confirmation : TunnelMessage :=
    { emptyTunnelMessage with type := "registered",
                              deploymentID := msg.deploymentID }
  let url := "https://" ++ msg.deploymentID ++ "." ++ baseDomain
  (tm', tc', confirmation, url)

/-- Embedding of `tunnel.generateSubdomain` (the skeleton gateway in
`internal/tunnel/server.go`): the first 12 characters of the deployment id
when it is longer than 12 characters, otherwise the id unchanged (ids are
ASCII, so Go's byte slicing equals character slicing). -/
def generateSubdomain (deploymentID : String) : String :=
  if deploymentID.length > 12 then (deploymentID.toList.take 12).asString
  else deploymentID

def c7Tm0 : TunnelManager := { tunnels := [], routes := [] }

def c7Tc0 : TunnelConn := { peerID := "", routes := [], pending := [] }

def c7RegA : TunnelMessage :=
  { emptyTunnelMessage with type := "register", deploymentID := "abc",
                            port := 8080, peerID := "peerA" }

def c7RegB : TunnelMessage :=
  { emptyTunnelMessage with type := "register", deploymentID := "abc",
                            port := 9090, peerID := "peerB" }

def c7Step1 : TunnelManager × TunnelConn × TunnelMessage × String :=
  registerCase c7Tm0 c7Tc0 0 c7RegA "gw.example"

def c7Step2 : TunnelManager × TunnelConn × TunnelMessage × String :=
  registerCase c7Step1.1 c7Tc0 1 c7RegB "gw.example"

/-- C7 counterexample: the route key and URL label for deployment id
`abc` is the raw 3-character id, not a 12-character label; and a second,
colliding registration of the same deployment id from another tunnel is
confirmed with `registered` — not failed with a route-conflict — and
silently overwrites the route index entry. -/
theorem register_uses_raw_id_and_overwrites :
    c7Step1.2.2.2 = "https://abc.gw.example" ∧
    findKey (c7Step1.1).routes "abc" = some 0 ∧
    (c7Step2.2.2.1).type = "registered" ∧
    findKey (c7Step2.1).routes "abc" = some 1 ∧
    generateSubdomain "abc" = "abc" := by
  exact ⟨rfl, by rfl, rfl, by rfl, by rfl⟩

/-- C7 (amended): the implemented gateway keys routes by the deployment id
itself and assigns `https://<deployment-id>.<base-domain>`; registration
always confirms with `registered` and overwrites any existing binding for
that deployment id, with no uniqueness check and no route-conflict error.
The skeleton tunnel server's `generateSubdomain` is deterministic: it
truncates ids longer than 12 characters to their first 12 characters
(generated `dep-<nanos>` ids are longer) and returns shorter ids
unchanged. -/
theorem register_route_key_and_subdomain :
    (∀ (tm : TunnelManager) (tc : TunnelConn) (ref : TunnelRef)
      (msg : TunnelMessage) (baseDomain : String),
      (registerCase tm tc ref msg baseDomain).2.2.2 =
        "https://" ++ msg.deploymentID ++ "." ++ baseDomain ∧
      (registerCase tm tc ref msg baseDomain).1.routes =
        insertKey tm.routes msg.deploymentID ref ∧
      (registerCase tm tc ref msg baseDomain).2.2.1.type = "registered" ∧
      findKey (registerCase tm tc ref msg baseDomain).1.routes
        msg.deploymentID = some ref) ∧
    (∀ deploymentID : String, 12 < deploymentID.length →
      generateSubdomain deploymentID = (deploymentID.toList.take 12).asString ∧
      (generateSubdomain deploymentID).length = 12) ∧
    (∀ deploymentID : String, deploymentID.length ≤ 12 →
      generateSubdomain deploymentID = deploymentID) := by
  refine ⟨?_, ?_, ?_⟩
  · intro tm tc ref msg baseDomain
    refine ⟨rfl, rfl, rfl, ?_⟩
    exact findKey_insertKey_self tm.routes msg.deploymentID ref
  · intro deploymentID h
    have hgt : deploymentID.length > 12 := h
    constructor
    · unfold generateSubdomain
      rw [if_pos hgt]
    · unfold generateSubdomain
      rw [if_pos hgt]
      show (deploymentID.toList.take 12).length = 12
      rw [List.length_take]
      have : deploymentID.toList.length = deploymentID.length := rfl
      omega
  · intro deploymentID h
    unfold generateSubdomain
    rw [if_neg (by omega)]

def c7RegLong : TunnelMessage :=
  { emptyTunnelMessage with type := "register",
                            deploymentID := "dep-1700000000000000000",
                            port := 8080, peerID := "peerA" }

/-- Witness for `register_route_key_and_subdomain` on concrete inputs:
a register frame for `dep-1700000000000000000` on port 8080, and the
subdomain truncation at both sides of the 12-character boundary. -/
theorem register_route_key_and_subdomain_witness :
    (registerCase c7Tm0 c7Tc0 0 c7RegLong "gw.example").2.2.2 =
      "https://dep-1700000000000000000.gw.example" ∧
    (generateSubdomain "dep-1700000000000000000").length = 12 ∧
    generateSubdomain "abc" = "abc" := by
  refine ⟨?_, ?_, ?_⟩
  · exact (register_route_key_and_subdomain.1 c7Tm0 c7Tc0 0 c7RegLong
      "gw.example").1
  · exact ((register_route_key_and_subdomain.2.1 "dep-1700000000000000000"
      (by decide)).2)
  · exact register_route_key_and_subdomain.2.2 "abc" (by decide)

/-- Embedding of `delete(m, k)` for every key of a snapshot (the disconnect loop
`for depID := range tc.Routes`). -/
def eraseKeys {β : Type} (l : List (String × β)) :
    List String → List (String × β)
  | [] => l
  | k :: rest => eraseKeys (eraseKey l k) rest

theorem findKey_eraseKey_none {β : Type} (l : List (String × β))
    (k k' : String) (h : findKey l k = none) :
    findKey (eraseKey l k') k = none := by
  induction l with
  | nil => rfl
  | cons kv rest ih =>
    obtain ⟨a, b⟩ := kv
    by_cases hak : a = k
    · simp [findKey, hak] at h
    · have h' : findKey rest k = none := by simpa [findKey, hak] using h
      by_cases hak' : a = k'
      · simpa [eraseKey, hak'] using ih h'
      · simpa [eraseKey, findKey, hak, hak'] using ih h'

theorem findKey_eraseKeys_none {β : Type} (ks : List String)
    (l : List (String × β)) (k : String) (h : findKey l k = none) :
    findKey (eraseKeys l ks) k = none := by
  induction ks generalizing l with
  | nil => exact h
  | cons a rest ih => exact ih _ (findKey_eraseKey_none l k a h)

theorem findKey_eraseKeys_mem {β : Type} (ks : List String)
    (l : List (String × β)) (k : String) (h : k ∈ ks) :
    findKey (eraseKeys l ks) k = none := by
  induction ks generalizing l with
  | nil => cases h
  | cons a rest ih =>
    rcases List.mem_cons.mp h with h1 | h1
    · subst h1
      exact findKey_eraseKeys_none rest _ k (findKey_eraseKey_self l k)
    · exact ih _ h1

/-- The cleanup block at the end of `handleTunnelConn`, run when the read
loop exits (tunnel disconnect): delete the tunnel from the peer index when
it had registered a peer id, delete every route it owned from the route
index, and close the socket. The per-tunnel pending map is not touched
and nothing is written to the waiting response channels. -/
def disconnectCleanup (tm : TunnelManager) (tc : TunnelConn) :
    TunnelManager × TunnelConn :=
  let tm1 : TunnelManager :=
    if tc.peerID ≠ "" then
      { tm with tunnels := eraseKey tm.tunnels tc.peerID }
    else tm
  let tm2 : TunnelManager :=
    { tm1 with routes := eraseKeys tm1.routes (keysOf tc.routes) }
  (tm2, tc)

/-- Adding a pending slot for a request id
(`tc.pending[msg.RequestID] = ch`). -/
def insertSlot (pending : List String) (requestID : String) : List String :=
  if requestID ∈ pending then pending else pending ++ [requestID]

/-- Embedding of `delete(tc.pending, requestID)`. -/
def erasePending (pending : List String) (requestID : String) : List String :=
  match pending with
  | [] => []
  | r :: rest =>
    if r = requestID then erasePending rest requestID
    else r :: erasePending rest requestID

/-- Embedding of `TunnelConn.Request`: install the single-slot response channel under
the request id, send the request frame, then wait on the slot; `waited` is
the outcome of the wait within the caller's timeout (`some resp` when the
read loop delivered a response frame in time, `none` on expiry). On expiry
the slot is deleted and the timeout error is returned to the caller. -/
def RequestCall (tc : TunnelConn) (msg : TunnelMessage)
    (waited : Option TunnelMessage) :
    TunnelConn × Except String TunnelMessage :=
  let tc1 : TunnelConn :=
    { tc with pending := insertSlot tc.pending msg.requestID }
  match waited with
  | some resp => (tc1, .ok resp)
  | none =>
    ({ tc1 with pending := erasePending tc1.pending msg.requestID },
     .error "request timeout")

/-- The `response` case of `handleTunnelConn`: when a pending slot exists
for the frame's request id, deliver the frame on its channel and delete
the slot; otherwise do nothing — the frame is silently dropped. The
second component is the delivered frame, if any. -/
def handleResponseFrame (tc : TunnelConn) (msg : TunnelMessage) :
    TunnelConn × Option TunnelMessage :=
  if msg.requestID ∈ tc.pending then
    ({ tc with pending := erasePending tc.pending msg.requestID }, some msg)
  else (tc, none)

/-- The timeout `proxyRequest` passes to `TunnelConn.Request`
(`30 * time.Second`, in nanoseconds). -/
def tunnelRequestTimeout : Int := 30 * 1000000000

/-- Embedding of `GatewayHandler.proxyRequest` on a tunnel error: answer the public
client with `http.StatusBadGateway` (502) and the error text. -/
def proxyErrorReply (e : String) : Int × String :=
  (502, "Gateway error: " ++ e)

def c8Tc : TunnelConn :=
  { peerID := "peerA", routes := [("dep-1", 8080)], pending := ["req-55"] }

def c8Tm : TunnelManager :=
  { tunnels := [("peerA", 0)], routes := [("dep-1", 0)] }

/-- C8 counterexample: a tunnel with one in-flight public request (pending
slot `req-55`) disconnects; the cleanup removes the tunnel from the peer
index and the route index, yet the pending slot is still present and was
never signalled — the waiting request is left to run into its own
30-second timeout, contradicting the claim that every pending slot is
signalled with a 502 tunnel-gone reply before the tunnel is removed. -/
theorem disconnect_leaves_pending_unsignalled :
    (disconnectCleanup c8Tm c8Tc).2.pending = ["req-55"] ∧
    (disconnectCleanup c8Tm c8Tc).2 = c8Tc ∧
    findKey (disconnectCleanup c8Tm c8Tc).1.tunnels "peerA" = none ∧
    findKey (disconnectCleanup c8Tm c8Tc).1.routes "dep-1" = none := by
  exact ⟨rfl, rfl, by rfl, by rfl⟩

theorem erasePending_append_fresh (l : List String) (requestID : String)
    (h : requestID ∉ l) : erasePending (l ++ [requestID]) requestID = l := by
  induction l with
  | nil => simp [erasePending]
  | cons r rest ih =>
    simp only [List.mem_cons] at h
    push_neg at h
    have hr : ¬ r = requestID := Ne.symm h.1
    simp only [List.cons_append, erasePending, if_neg hr,
      List.cons.injEq, true_and]
    exact ih h.2

/-- C8 (amended): on tunnel disconnect the gateway removes the tunnel from
the peer index (when it had registered) and drains its routes from the
route index, but the pending slots are NOT signalled: the tunnel-side
state, its pending map included, is returned unchanged and no frame is
delivered. An in-flight public request therefore completes only through
its own 30-second timeout, after which the client gets a 502 reply. -/
theorem disconnect_removes_indices_not_pending :
    (∀ (tm : TunnelManager) (tc : TunnelConn),
      (disconnectCleanup tm tc).2 = tc) ∧
    (∀ (tm : TunnelManager) (tc : TunnelConn),
      tc.peerID ≠ "" →
      findKey (disconnectCleanup tm tc).1.tunnels tc.peerID = none) ∧
    (∀ (tm : TunnelManager) (tc : TunnelConn) (dep : String),
      dep ∈ keysOf tc.routes →
      findKey (disconnectCleanup tm tc).1.routes dep = none) ∧
    (∀ (tc : TunnelConn) (msg : TunnelMessage),
      (RequestCall tc msg none).2 = .error "request timeout" ∧
      proxyErrorReply "request timeout" =
        (502, "Gateway error: request timeout")) := by
  refine ⟨?_, ?_, ?_, ?_⟩
  · intro tm tc
    rfl
  · intro tm tc h
    show findKey (if tc.peerID ≠ "" then
      { tm with tunnels := eraseKey tm.tunnels tc.peerID }
      else tm).tunnels tc.peerID = none
    rw [if_pos h]
    exact findKey_eraseKey_self tm.tunnels tc.peerID
  · intro tm tc dep hmem
    exact findKey_eraseKeys_mem (keysOf tc.routes) _ dep hmem
  · intro tc msg
    exact ⟨rfl, rfl⟩

/-- Witness for `disconnect_removes_indices_not_pending` at the concrete
disconnect scenario of `c8Tm`/`c8Tc`. -/
theorem disconnect_removes_indices_not_pending_witness :
    (disconnectCleanup c8Tm c8Tc).2 = c8Tc ∧
    findKey (disconnectCleanup c8Tm c8Tc).1.tunnels "peerA" = none ∧
    findKey (disconnectCleanup c8Tm c8Tc).1.routes "dep-1" = none :=
  ⟨disconnect_removes_indices_not_pending.1 c8Tm c8Tc,
   disconnect_removes_indices_not_pending.2.1 c8Tm c8Tc (by decide),
   disconnect_removes_indices_not_pending.2.2.1 c8Tm c8Tc "dep-1"
     (by decide)⟩

/-- C9: a public request whose response frame does not arrive within the
30-second window has its pending slot deleted (the pending map returns to
its prior state) and the public client receives a 502 reply with the
timeout error; a response frame that arrives after the slot was deleted
finds no pending entry and is silently dropped, delivering nothing and
changing no gateway state. -/
theorem request_timeout_502_late_response_dropped :
    tunnelRequestTimeout = 30 * 1000000000 ∧
    (∀ (tc : TunnelConn) (msg : TunnelMessage),
      msg.requestID ∉ tc.pending →
      (RequestCall tc msg none).1.pending = tc.pending ∧
      msg.requestID ∉ (RequestCall tc msg none).1.pending ∧
      (RequestCall tc msg none).2 = .error "request timeout" ∧
      proxyErrorReply "request timeout" =
        (502, "Gateway error: request timeout")) ∧
    (∀ (tc : TunnelConn) (msg : TunnelMessage),
      msg.requestID ∉ tc.pending →
      handleResponseFrame tc msg = (tc, none)) := by
  refine ⟨rfl, ?_, ?_⟩
  · intro tc msg h
    have hp : (RequestCall tc msg none).1.pending = tc.pending := by
      show erasePending (insertSlot tc.pending msg.requestID)
        msg.requestID = tc.pending
      unfold insertSlot
      rw [if_neg h]
      exact erasePending_append_fresh tc.pending msg.requestID h
    refine ⟨hp, ?_, rfl, rfl⟩
    rw [hp]
    exact h
  · intro tc msg h
    unfold handleResponseFrame
    rw [if_neg h]

def c9ReqMsg : TunnelMessage :=
  { emptyTunnelMessage with type := "request", requestID := "req-77",
                            deploymentID := "dep-1", method := "GET",
                            path := "/" }

/-- Witness for `request_timeout_502_late_response_dropped` at the
concrete tunnel `c8Tc` and a fresh request id. -/
theorem request_timeout_502_late_response_dropped_witness :
    (RequestCall c8Tc c9ReqMsg none).1.pending = ["req-55"] ∧
    handleResponseFrame c8Tc c9ReqMsg = (c8Tc, none) :=
  ⟨(request_timeout_502_late_response_dropped.2.1 c8Tc c9ReqMsg
      (by decide)).1,
   request_timeout_502_late_response_dropped.2.2 c8Tc c9ReqMsg (by decide)⟩

/-! ## Wire framing (`protocol.Encoder` / `protocol.Decoder`) -/

/-- Embedding of `protocol.MaxMessageSize` (10 MiB). -/
def MaxMessageSize : Nat := 10 * 1024 * 1024

/-- The 4-byte big-endian encoding of a `uint32` length, as emitted by
`binary.Write(w, binary.BigEndian, uint32(len(data)))`. -/
def be32 (n : Nat) : List Nat :=
  [n / 16777216 % 256, n / 65536 % 256, n / 256 % 256, n % 256]

/-- The value read back by `binary.Read(r, binary.BigEndian, &length)`. -/
def be32val (l : List Nat) : Nat :=
  match l with
  | [b0, b1, b2, b3] => b0 * 16777216 + b1 * 65536 + b2 * 256 + b3
  | _ => 0

/-- Embedding of `Encoder.Encode`: JSON-marshal the message (`data` stands for the
marshalled payload bytes), refuse oversize payloads, then write one
type-tag byte, the 4-byte big-endian length and the payload. The tag is a
`MessageType` (`uint8`), so it is a byte already. -/
def Encode (msgType : Nat) (data : List Nat) : Except String (List Nat) :=
  if data.length > MaxMessageSize then .error "message too large"
  else .ok (msgType :: (be32 data.length ++ data))

/-- Read one byte from the stream. -/
def readByte (s : List Nat) : Except String (Nat × List Nat) :=
  match s with
  | [] => .error "EOF"
  | b :: rest => .ok (b, rest)

/-- Read exactly `n` bytes from the stream (`io.ReadFull`). -/
def readBytes (n : Nat) (s : List Nat) :
    Except String (List Nat × List Nat) :=
  if s.length < n then .error "EOF" else .ok (s.take n, s.drop n)

/-- Embedding of `Decoder.Decode`: read the type byte, read and decode the 4-byte
big-endian length, reject oversize lengths, then read the payload;
returns the tag, the raw payload bytes and the unread rest of the
stream. -/
def Decode (s : List Nat) : Except String (Nat × List Nat × List Nat) :=
  match readByte s with
  | .error e => .error e
  | .ok (msgType, s1) =>
    match readBytes 4 s1 with
    | .error e => .error e
    | .ok (lenBytes, s2) =>
      let length := be32val lenBytes
      if length > MaxMessageSize then .error "message too large"
      else
        match readBytes length s2 with
        | .error e => .error e
        | .ok (data, s3) => .ok (msgType, data, s3)

theorem be32val_be32 (n : Nat) (h : n < 4294967296) :
    be32val (be32 n) = n := by
  simp only [be32, be32val]
  omega

/-- C10: for every type-tag byte and every payload of at most
`MaxMessageSize` (10 MiB) bytes, `Encoder.Encode` succeeds and
`Decoder.Decode` on the resulting byte stream returns exactly the tag,
a payload byte-for-byte equal to the encoded one, and the untouched rest
of the stream. -/
theorem encode_decode_roundtrip (msgType : Nat) (data rest : List Nat)
    (_htag : msgType < 256) (hlen : data.length ≤ MaxMessageSize) :
    Encode msgType data = .ok (msgType :: (be32 data.length ++ data)) ∧
    Decode ((msgType :: (be32 data.length ++ data)) ++ rest) =
      .ok (msgType, data, rest) := by
  have hlen' : data.length ≤ 10485760 := hlen
  constructor
  · unfold Encode
    rw [if_neg (by omega)]
  · unfold Decode
    have h1 : readByte ((msgType :: (be32 data.length ++ data)) ++ rest) =
        .ok (msgType, (be32 data.length ++ data) ++ rest) := rfl
    rw [h1]
    have hassoc : (be32 data.length ++ data) ++ rest =
        be32 data.length ++ (data ++ rest) := by
      rw [List.append_assoc]
    rw [hassoc]
    dsimp only
    have h2 : readBytes 4 (be32 data.length ++ (data ++ rest)) =
        .ok (be32 data.length, data ++ rest) := by
      unfold readBytes
      rw [if_neg (by simp [be32])]
      rw [List.take_left' (by rfl), List.drop_left' (by rfl)]
    rw [h2]
    have h3 : be32val (be32 data.length) = data.length :=
      be32val_be32 data.length (by omega)
    dsimp only
    rw [h3]
    rw [if_neg (by omega)]
    have h4 : readBytes data.length (data ++ rest) = .ok (data, rest) := by
      unfold readBytes
      rw [if_neg (by simp)]
      rw [List.take_left' (by rfl), List.drop_left' (by rfl)]
    rw [h4]

/-- Witness for `encode_decode_roundtrip` on a concrete two-byte payload
with trailing stream bytes. -/
theorem encode_decode_roundtrip_witness :
    Encode 1 [10, 20] = .ok [1, 0, 0, 0, 2, 10, 20] ∧
    Decode [1, 0, 0, 0, 2, 10, 20, 99] = .ok (1, [10, 20], [99]) := by
  have h := encode_decode_roundtrip 1 [10, 20] [99] (by decide) (by decide)
  exact ⟨h.1, h.2⟩

end PeerCompute
